import Mathlib

/-!
Verification of the version-checker repository: a shallow embedding of the
version comparison, check orchestration and merge-conflict resolution code
(`version_checker/utils.py`, `version_checker/merge_utils.py`) together with
theorems settling the specification's claims.

Python strings are modelled as Lean `String` (lists of unicode characters;
Python `str` indexing is by character, as is ours).  The Python `re` module is
an external collaborator and is modelled by an abstract `RegexEngine`
(`re.search` either raises `re.error` for an invalid pattern or returns the
first match); concrete engines used in witnesses are explicit result tables,
each row of which reproduces CPython's behaviour on those inputs.
-/

namespace VersionChecker

/-! ### Generic character-list helpers (Python string primitives) -/

/-- Digits of a decimal numeral to its value (`int(...)` on a digit string). -/
def digitsToNat (cs : List Char) : Nat :=
  cs.foldl (fun a c => a * 10 + (c.toNat - 48)) 0

/-- Split a character list on every occurrence of `sep`, like Python
`str.split(sep)` for a one-character separator: never returns `[]`. -/
def splitOnChar (sep : Char) : List Char → List (List Char)
  | [] => [[]]
  | c :: rest =>
    let r := splitOnChar sep rest
    if c = sep then [] :: r
    else
      match r with
      | h :: t => (c :: h) :: t
      | [] => [[c]]

/-- First occurrence split: `some (before, after)` when `sep` (non-empty)
occurs in the list, splitting at its first occurrence. -/
def splitOnceCore (sep : List Char) : List Char → Option (List Char × List Char)
  | [] => none
  | c :: rest =>
    if sep.isPrefixOf (c :: rest) then some ([], (c :: rest).drop sep.length)
    else (splitOnceCore sep rest).map (fun p => (c :: p.1, p.2))

/-- Python `s.split(sep, 1)` unpacked into two variables: `none` models the
`ValueError` raised when `sep` is empty or when `sep` does not occur (a
one-element list fails to unpack). -/
def splitOnce (s sep : String) : Option (String × String) :=
  if sep = "" then none
  else (splitOnceCore sep.data s.data).map (fun p => (String.mk p.1, String.mk p.2))

/-- Python substring test `needle in hay`. -/
def strContains (hay needle : String) : Bool :=
  needle = "" || (splitOnceCore needle.data hay.data).isSome

/-- Python `s.endswith(suffix)`. -/
def strEndsWith (s suf : String) : Bool :=
  suf.data.isSuffixOf s.data

/-- Characters Python `str.splitlines` treats as line boundaries. -/
def isLineBreakChar (c : Char) : Bool :=
  c = '\n' || c = '\r' || c.toNat = 0x0b || c.toNat = 0x0c || c.toNat = 0x1c ||
    c.toNat = 0x1d || c.toNat = 0x1e || c.toNat = 0x85 || c.toNat = 0x2028 ||
    c.toNat = 0x2029

/-- Accumulator form of Python `str.splitlines(keepends=True)`. -/
def splitlinesAux (acc : List Char) : List Char → List (List Char)
  | [] => if acc.isEmpty then [] else [acc.reverse]
  | '\r' :: '\n' :: rest => (acc.reverse ++ ['\r', '\n']) :: splitlinesAux [] rest
  | c :: rest =>
    if isLineBreakChar c then (acc.reverse ++ [c]) :: splitlinesAux [] rest
    else splitlinesAux (c :: acc) rest

/-- Python `s.splitlines(keepends=True)`. -/
def splitlinesStr (s : String) : List String :=
  (splitlinesAux [] s.data).map String.mk

/-- Intercalate path or identifier pieces with the given separator. -/
def joinWith (sep : String) : List String → String
  | [] => ""
  | [p] => p
  | p :: rest => p ++ sep ++ joinWith sep rest

/-! ### Semantic versions (the `semver` collaborator, `semver.VersionInfo`)

The parser mirrors python-semver's anchored regex
`^(0|[1-9]\d*)\.(0|[1-9]\d*)\.(0|[1-9]\d*)(-prerelease)?(+build)?$`
(ASCII digits; a single trailing newline is accepted because `$` matches
before a final newline) and the comparison mirrors `VersionInfo.compare`. -/

structure SemVer where
  major : Nat
  minor : Nat
  patch : Nat
  prerelease : List String
  build : List String
deriving DecidableEq

/-- ASCII decimal digit test. -/
def isDigitChar (c : Char) : Bool :=
  48 ≤ c.toNat && c.toNat ≤ 57

/-- Semver identifier characters `[0-9a-zA-Z-]`. -/
def isIdentChar (c : Char) : Bool :=
  isDigitChar c || (65 ≤ c.toNat && c.toNat ≤ 90) || (97 ≤ c.toNat && c.toNat ≤ 122) || c = '-'

/-- Numeric core component `0|[1-9]\d*` (no leading zeros) to its value. -/
def parseNumericId (cs : List Char) : Option Nat :=
  if !cs.isEmpty && cs.all isDigitChar && (cs = ['0'] || cs.head? ≠ some '0') then
    some (digitsToNat cs)
  else none

/-- Pre-release identifier `0|[1-9]\d*|\d*[a-zA-Z-][0-9a-zA-Z-]*`. -/
def preIdentOk (cs : List Char) : Bool :=
  !cs.isEmpty && cs.all isIdentChar &&
    (!cs.all isDigitChar || cs = ['0'] || cs.head? ≠ some '0')

/-- Build identifier `[0-9a-zA-Z-]+`. -/
def buildIdentOk (cs : List Char) : Bool :=
  !cs.isEmpty && cs.all isIdentChar

/-- Parse `major.minor.patch[-prerelease]` given already-split build parts. -/
def parseCorePre (cs : List Char) (build : List String) : Option SemVer :=
  let core := cs.takeWhile (· ≠ '-')
  let rest := cs.dropWhile (· ≠ '-')
  match splitOnChar '.' core with
  | [ma, mi, pa] =>
    match parseNumericId ma, parseNumericId mi, parseNumericId pa with
    | some major, some minor, some patch =>
      match rest with
      | [] => some ⟨major, minor, patch, [], build⟩
      | _ :: pre =>
        let pids := splitOnChar '.' pre
        if pids.all preIdentOk then
          some ⟨major, minor, patch, pids.map String.mk, build⟩
        else none
    | _, _, _ => none
  | _ => none

/-- Parse a full semantic version character list. -/
def parseSemVerCore (cs : List Char) : Option SemVer :=
  match splitOnChar '+' cs with
  | [corePre] => parseCorePre corePre []
  | [corePre, buildPart] =>
    let bids := splitOnChar '.' buildPart
    if bids.all buildIdentOk then parseCorePre corePre (bids.map String.mk) else none
  | _ => none

/-- Model of `semver.VersionInfo.parse`: `none` models the `ValueError` raised
on an unparsable string.  The regex's `$` also matches just before one final
newline, so a single trailing newline is stripped first. -/
def parseSemVer (s : String) : Option SemVer :=
  let cs := s.data
  parseSemVerCore (if cs.getLast? = some '\n' then cs.dropLast else cs)

/-- Three-way comparison of naturals. -/
def cmpNat (a b : Nat) : Ordering :=
  if a < b then .lt else if b < a then .gt else .eq

/-- Lexicographic comparison of character lists by code point (Python `<` on
`str`). -/
def cmpCharList : List Char → List Char → Ordering
  | [], [] => .eq
  | [], _ :: _ => .lt
  | _ :: _, [] => .gt
  | a :: as, b :: bs =>
    if a.toNat < b.toNat then .lt
    else if b.toNat < a.toNat then .gt
    else cmpCharList as bs

/-- Python string comparison. -/
def cmpStr (a b : String) : Ordering :=
  cmpCharList a.data b.data

/-- Does a pre-release identifier consist only of digits (python-semver's
`isdigit` conversion to `int`)? -/
def isNumericIdent (s : String) : Bool :=
  !s.data.isEmpty && s.data.all isDigitChar

/-- python-semver `cmp_prerelease_tag`: numeric identifiers compare as
integers and sort before alphanumeric ones, which compare as strings. -/
def cmpIdent (a b : String) : Ordering :=
  if isNumericIdent a && isNumericIdent b then cmpNat (digitsToNat a.data) (digitsToNat b.data)
  else if isNumericIdent a then .lt
  else if isNumericIdent b then .gt
  else cmpStr a b

/-- Pairwise comparison of zipped identifier lists (`_nat_cmp`'s loop: the
first non-equal pair decides; an exhausted zip is a tie). -/
def cmpIdentLoop : List String → List String → Ordering
  | a :: as, b :: bs =>
    match cmpIdent a b with
    | .eq => cmpIdentLoop as bs
    | o => o
  | _, _ => .eq

/-- python-semver `_nat_cmp`: pairwise identifier comparison, ties broken by
the length of the dot-joined pre-release strings. -/
def natCmp (a b : List String) : Ordering :=
  match cmpIdentLoop a b with
  | .eq => cmpNat (joinWith "." a).length (joinWith "." b).length
  | o => o

/-- Pre-release comparison: no pre-release ranks above any pre-release;
otherwise `_nat_cmp` decides. -/
def cmpPrerelease : List String → List String → Ordering
  | [], [] => .eq
  | [], _ :: _ => .gt
  | _ :: _, [] => .lt
  | a, b => natCmp a b

/-- Chain two comparisons: the first non-`eq` answer wins. -/
def ordThen (a b : Ordering) : Ordering :=
  match a with
  | .eq => b
  | o => o

/-- python-semver `VersionInfo.compare`: major, minor, patch numerically, then
the pre-release rule; build metadata is ignored. -/
def semVerCmp (a b : SemVer) : Ordering :=
  ordThen (cmpNat a.major b.major)
    (ordThen (cmpNat a.minor b.minor)
      (ordThen (cmpNat a.patch b.patch)
        (cmpPrerelease a.prerelease b.prerelease)))

/-- Python `old_version < new_version` on parsed versions. -/
def semVerLt (a b : SemVer) : Bool :=
  semVerCmp a b = Ordering.lt

/-! ### `compare_versions` (utils.py, lines 88..127)

The Python body parses inside one `try`: when `old_version_str` is non-empty
but unparsable, the `ValueError` is raised before `new_version_str` is ever
parsed, so `new_version` stays `None` and the comparison fails.  The function
returns `True` exactly on the two `ok` paths. -/

def compare_versions (old_version_str new_version_str : String) : Bool :=
  let parsed : Option SemVer × Option SemVer :=
    if old_version_str = "" then (none, parseSemVer new_version_str)
    else
      match parseSemVer old_version_str with
      | none => (none, none)
      | some o => (some o, parseSemVer new_version_str)
  match parsed.2 with
  | none => false
  | some n =>
    match parsed.1 with
    | none => true
    | some o => semVerLt o n

/-! ### Exceptions and external collaborators

Python control flow that escapes a function is modelled by `Except`:
`sysExit` is `sys.exit(1)` (raised by `error(..., abort=True)`), `reError` a
`re.error` escaping `re.search` on an invalid pattern (nothing in the code
catches it). -/

inductive PyErr where
  | sysExit
  | reError
deriving DecidableEq

/-- Computations that may terminate the process or raise. -/
abbrev PyM (α : Type) := Except PyErr α

/-- True exactly on the non-raising results. -/
def pySucceeded : PyM Bool → Bool
  | .ok _ => true
  | .error _ => false

/-- Abstract model of `re.search`: `error ()` models `re.error` raised while
compiling an invalid pattern, `ok (some m)` a match whose `group(0)` is `m`,
and `ok none` a valid pattern with no match. -/
structure RegexEngine where
  search : String → String → Except Unit (Option String)

/-- Model of a git commit as seen through the code's collaborator calls: a
finite map from repo-relative path to file content. -/
structure Commit where
  files : List (String × String)
deriving DecidableEq

/-- Content of a file at a commit (`(commit.tree / path).data_stream...`),
`none` modelling the `KeyError` for an absent path. -/
def Commit.getFile (c : Commit) (p : String) : Option String :=
  c.files.lookup p

/-- Model of `_has_commit_file`. -/
def _has_commit_file (c : Commit) (p : String) : Bool :=
  (c.getFile p).isSome

/-! ### `_search_or_error` and `search_commit_file` (utils.py 398..411, 257..269) -/

/-- Model of `_search_or_error`: `re.search` first (an invalid pattern raises
out of the function); on a match return `group(0)`; otherwise fall back to the
literal substring test; otherwise `error(..., abort)`, which returns the empty
string when not aborting. -/
def _search_or_error (E : RegexEngine) (regex_str to_search_str : String)
    (abort : Bool) : PyM String :=
  match E.search regex_str to_search_str with
  | .error _ => .error .reError
  | .ok (some m) => .ok m
  | .ok none =>
    if strContains to_search_str regex_str then .ok regex_str
    else if abort then .error .sysExit else .ok ""

/-- Model of `search_commit_file`: the `KeyError` of a missing file is caught
and reported via `error(..., abort)`; the regex search itself is
`_search_or_error`. -/
def search_commit_file (E : RegexEngine) (git_commit : Commit) (fpath : String)
    (search_regex : String) (abort : Bool) : PyM String :=
  match git_commit.getFile fpath with
  | some content => _search_or_error E search_regex content abort
  | none => if abort then .error .sysExit else .ok ""

/-! ### `parse_versions_from_version_file` (utils.py 272..297) -/

/-- Model of `parse_versions_from_version_file`: missing in current commit is
fatal; missing in base commit means a brand-new file (old version is empty);
otherwise both sides are searched fatally. -/
def parse_versions_from_version_file (E : RegexEngine) (base_commit current_commit : Commit)
    (version_file version_regex : String) : PyM (String × String) :=
  if !_has_commit_file current_commit version_file then .error .sysExit
  else if !_has_commit_file base_commit version_file then do
    let new ← search_commit_file E current_commit version_file version_regex true
    .ok ("", new)
  else do
    let old ← search_commit_file E base_commit version_file version_regex true
    let new ← search_commit_file E current_commit version_file version_regex true
    .ok (old, new)

/-- The `abort` keyword of `compare_versions`: both failing branches call
`error(..., abort=abort)`, so with `abort` set a `False` result becomes
`sys.exit(1)`. -/
def compare_versions_abort (old_version_str new_version_str : String)
    (abort : Bool) : PyM Bool :=
  if compare_versions old_version_str new_version_str then .ok true
  else if abort then .error .sysExit else .ok false

/-! ### POSIX path model (`os.path` collaborator) -/

/-- Collapse `.` , empty and `..` components the way `posixpath.normpath`
does for an absolute path (a leading `..` disappears at the root). -/
def resolveDots (comps : List String) : List String :=
  comps.foldl (fun acc c => if c = ".." then acc.dropLast else acc ++ [c]) []

/-- Components of an absolute POSIX path after normalisation. -/
def pathComponents (p : String) : List String :=
  resolveDots ((splitOnChar '/' p.data).map String.mk |>.filter (fun c => c ≠ "" && c ≠ "."))

/-- Model of `posixpath.abspath` relative to an absolute `cwd`:
`normpath(join(cwd, p))`. -/
def abspath (cwd p : String) : String :=
  let comps := if p.data.head? = some '/' then pathComponents p
               else pathComponents (cwd ++ "/" ++ p)
  "/" ++ joinWith "/" comps

/-- Drop the longest common component prefix of two paths. -/
def dropCommon : List String → List String → List String × List String
  | a :: as, b :: bs => if a = b then dropCommon as bs else (a :: as, b :: bs)
  | as, bs => (as, bs)

/-- Model of `posixpath.relpath(path, start)` for absolute arguments. -/
def relpath (path start : String) : String :=
  let rs := dropCommon (pathComponents path) (pathComponents start)
  let parts := rs.2.map (fun _ => "..") ++ rs.1
  if parts = [] then "." else joinWith "/" parts

/-! ### `CheckerPath` (utils.py 25..58)

The Python class stores one canonical absolute path (plus the repo root) and
recomputes `cwd_path` / `repo_path` from it on every access.  It defines no
`__eq__` or `__hash__`, so Python `==` on two `CheckerPath` values is object
identity; identity is modelled by a construction token `objId` that distinct
constructions never share. -/

structure CheckerPath where
  objId : Nat
  repo_root_path : String
  abs_path : String
deriving DecidableEq

/-- Model of `CheckerPath.__init__(repo_path, file_path)` run with working
directory `cwd`: both stored fields pass through `os.path.abspath`. -/
def CheckerPath.make (objId : Nat) (cwd repo_path file_path : String) : CheckerPath :=
  ⟨objId, abspath cwd repo_path, abspath cwd file_path⟩

/-- The `repo_path` property. -/
def CheckerPath.repo_path (c : CheckerPath) : String :=
  relpath c.abs_path c.repo_root_path

/-- The `cwd_path` property (the process working directory is explicit). -/
def CheckerPath.cwd_path (c : CheckerPath) (cwd : String) : String :=
  relpath c.abs_path cwd

/-- Python `==` on `CheckerPath`: no `__eq__` is defined, so this is
`object.__eq__`, reference identity. -/
def CheckerPath.pyEq (a b : CheckerPath) : Bool :=
  a.objId == b.objId

/-! ### `do_check` (utils.py 130..185) -/

/-- Deduplicated list of every path named by either commit. -/
def allPaths (base current : Commit) : List String :=
  (base.files.map Prod.fst ++ current.files.map Prod.fst).eraseDups

/-- Is `p` selected by the pathspec `scope` (a repo-relative directory prefix;
`.` selects everything)? -/
def underScope (scope p : String) : Bool :=
  scope = "." || p = scope || (scope ++ "/").data.isPrefixOf p.data

/-- Model of `base_commit.diff(current_commit, scope)` as the code uses it:
the paths inside `scope` whose content (or existence) differs. -/
def scopedDiff (base current : Commit) (scope : String) : List String :=
  (allPaths base current).filter (fun p => underScope scope p && base.getFile p ≠ current.getFile p)

/-- The sync-file loop of `do_check`: walk the remaining `(file, regex)`
pairs in order, look each version text up non-fatally, and accumulate whether
any file misses the new version string (the loop never stops early on a
mismatch; an escaping exception still aborts it). -/
def syncChecks (E : RegexEngine) (current_commit : Commit) (new_version : String) :
    List (CheckerPath × String) → PyM Bool
  | [] => .ok false
  | (file, regex) :: rest => do
    let file_version ← search_commit_file E current_commit file.repo_path regex false
    let restDetected ← syncChecks E current_commit new_version rest
    .ok (!strContains file_version new_version || restDetected)

/-- Model of `do_check`: empty inputs abort; an empty scoped diff
short-circuits success; the primary file's versions are parsed and compared
fatally; every remaining file must contain the new version string. -/
def do_check (E : RegexEngine) (base_commit current_commit : Commit)
    (files : List CheckerPath) (file_regexes : List String)
    (cwd working_tree_dir : String) : PyM Bool :=
  match files, file_regexes with
  | [], _ => .error .sysExit
  | _, [] => .error .sysExit
  | version_file :: restFiles, version_regex :: restRegexes => do
    let cwd_repo_path := relpath cwd working_tree_dir
    let scoped_diff := scopedDiff base_commit current_commit cwd_repo_path
    if scoped_diff.length = 0 then .ok true
    else do
      let vs ← parse_versions_from_version_file E base_commit current_commit
        version_file.repo_path version_regex
      let _ ← compare_versions_abort vs.1 vs.2 true
      let error_detected ← syncChecks E current_commit vs.2 (restFiles.zip restRegexes)
      if error_detected then .error .sysExit else .ok true

/-! ### Merge strategies and conflicts (merge_utils.py)

Modelled from the spec: the `MergeStrategy` enum lives in
`version_checker/constants.py`, which is not among the staged sources; the
spec lists its members as CURRENT, INCOMING, BOTH, NEITHER, HIGHER and LOWER.
The optional `merge_strategy` parameter (Python default `None`) is modelled as
`Option MergeStrategy`. -/

inductive MergeStrategy where
  | CURRENT
  | INCOMING
  | BOTH
  | NEITHER
  | HIGHER
  | LOWER
deriving DecidableEq

/-- Dataclass `VersionFile`: a path plus the version regex of each side. -/
structure VersionFile where
  path : CheckerPath
  current_regex : String
  incoming_regex : String
deriving DecidableEq

/-- Dataclass `MergeConflict`: one conflict region of a file, its character
offsets, marker lines and the two bodies. -/
structure MergeConflict where
  start_index : Nat
  end_index : Nat
  start_line : String
  end_line : String
  current : String
  incoming : String
  text : String
deriving DecidableEq

/-- Model of `MergeConflict._is_invalid_line`: non-empty text that does not
end on a newline. -/
def MergeConflict.isInvalidLine (text : String) : Bool :=
  text != "" && !strEndsWith text "\n"

/-- Model of `MergeConflict._create_conflict_text`: re-wrap two (possibly
empty) bodies in this conflict's own markers; nothing when both are empty. -/
def MergeConflict.createConflictText (c : MergeConflict) (current incoming : String) : String :=
  if current = "" && incoming = "" then ""
  else c.start_line ++ current ++ "=======\n" ++ incoming ++ c.end_line

/-- Model of `MergeConflict._get_merge_result`: pick, drop or concatenate the
two sides; any other strategy (`None`, HIGHER, LOWER) keeps the default. -/
def MergeConflict.getMergeResultOf (current incoming dflt : String)
    (merge_strategy : Option MergeStrategy) : String :=
  match merge_strategy with
  | some .CURRENT => current
  | some .INCOMING => incoming
  | some .BOTH => current ++ incoming
  | some .NEITHER => ""
  | _ => dflt

/-- Loop body of `MergeConflict.get_split_merge_result`: walk the split pairs,
cutting both bodies at each pair; `none` models the two early `return
self.text` paths (a split string not found — the `ValueError` — or a segment
that breaks a line boundary). -/
def MergeConflict.splitMergeAux (c : MergeConflict) (strat : Option MergeStrategy) :
    List (String × String) → String → String → String → Option String
  | [], result, current, incoming => some (result ++ c.createConflictText current incoming)
  | (current_split, incoming_split) :: rest, result, current, incoming =>
    match splitOnce current current_split, splitOnce incoming incoming_split with
    | some (current_parsed, current'), some (incoming_parsed, incoming') =>
      if MergeConflict.isInvalidLine current_parsed ||
          MergeConflict.isInvalidLine incoming_parsed ||
          MergeConflict.isInvalidLine current_split ||
          MergeConflict.isInvalidLine incoming_split then none
      else
        MergeConflict.splitMergeAux c strat rest
          (result ++ c.createConflictText current_parsed incoming_parsed ++
            MergeConflict.getMergeResultOf current_split incoming_split
              (c.createConflictText current_split incoming_split) strat)
          current' incoming'
    | _, _ => none

/-- Model of `MergeConflict.get_split_merge_result`: both abort paths return
the conflict's original text unchanged. -/
def MergeConflict.get_split_merge_result (c : MergeConflict)
    (merge_splits : List (String × String)) (merge_strategy : Option MergeStrategy) : String :=
  match MergeConflict.splitMergeAux c merge_strategy merge_splits "" c.current c.incoming with
  | some r => r
  | none => c.text

/-- Model of `MergeConflict.apply_merge`: replace the character span
`[start_index, end_index)` of the file text by the merge result. -/
def MergeConflict.apply_merge (c : MergeConflict) (file_text merge_result : String) : String :=
  String.mk (file_text.data.take c.start_index ++ merge_result.data ++
    file_text.data.drop c.end_index)

/-! ### `is_regex_match` and `parse_version_conflict_lines` (merge_utils.py 241..266) -/

/-- Model of `is_regex_match`: a regex match or a literal substring; an
invalid pattern raises out of the function. -/
def is_regex_match (E : RegexEngine) (regex_str search_str : String) : PyM Bool :=
  match E.search regex_str search_str with
  | .error _ => .error .reError
  | .ok (some _) => .ok true
  | .ok none => .ok (strContains search_str regex_str)

/-- The list comprehension filtering a body's lines by `is_regex_match`. -/
def filterMatchingLines (E : RegexEngine) (regex_str : String) :
    List String → PyM (List String)
  | [] => .ok []
  | l :: ls => do
    let b ← is_regex_match E regex_str l
    let rest ← filterMatchingLines E regex_str ls
    .ok (if b then l :: rest else rest)

/-- The boolean `is_regex_match` reduces to when its searches do not raise
(used to state theorems about the filtered line lists). -/
def matchesPure (E : RegexEngine) (regex_str search_str : String) : Bool :=
  match E.search regex_str search_str with
  | .error _ => false
  | .ok (some _) => true
  | .ok none => strContains search_str regex_str

/-- Pure form of the current-side matching lines of a conflict. -/
def currentMatchLines (E : RegexEngine) (vf : VersionFile) (c : MergeConflict) : List String :=
  (splitlinesStr c.current).filter (matchesPure E vf.current_regex)

/-- Pure form of the incoming-side matching lines of a conflict. -/
def incomingMatchLines (E : RegexEngine) (vf : VersionFile) (c : MergeConflict) : List String :=
  (splitlinesStr c.incoming).filter (matchesPure E vf.incoming_regex)

/-- Model of `parse_version_conflict_lines`: filter each body's lines by its
side's regex, then `list(zip(...))` — which silently truncates to the shorter
list when the counts differ (the code only logs a warning). -/
def parse_version_conflict_lines (E : RegexEngine) (version_file : VersionFile)
    (conflict : MergeConflict) : PyM (List (String × String)) := do
  let current_version_lines ←
    filterMatchingLines E version_file.current_regex (splitlinesStr conflict.current)
  let incoming_version_lines ←
    filterMatchingLines E version_file.incoming_regex (splitlinesStr conflict.incoming)
  .ok (current_version_lines.zip incoming_version_lines)

/-! ### Conflict parsing (CONFLICT_RE)

Modelled from the spec: `CONFLICT_RE` is defined in
`version_checker/constants.py`, which is not among the staged sources.  The
spec's wire format (section 6): a start line is the 7-character marker
`<<<<<<<` followed by a space and a non-empty ref label, newline-terminated;
the divider line is exactly seven `=` characters plus newline (as the
re-wrapping code in `merge_utils.py` also hardcodes); an end line is
`>>>>>>>` followed by a space and a ref label, newline-terminated; `current`
is the body between start and divider and `incoming` the body between divider
and end.  The scan is line-based and left to right, each region's bodies made
of whole lines. -/

/-- Start-marker line of the conflict grammar. -/
def isStartLine (l : String) : Bool :=
  "<<<<<<< ".data.isPrefixOf l.data && strEndsWith l "\n" && 10 ≤ l.length

/-- Divider line of the conflict grammar. -/
def isDividerLine (l : String) : Bool :=
  l = "=======\n"

/-- End-marker line of the conflict grammar. -/
def isEndLine (l : String) : Bool :=
  ">>>>>>> ".data.isPrefixOf l.data && strEndsWith l "\n" && 10 ≤ l.length

/-- Lines before the first divider line: `some (body, rest)` when one exists. -/
def takeUntilDivider : List String → Option (List String × List String)
  | [] => none
  | l :: rest =>
    if isDividerLine l then some ([], rest)
    else (takeUntilDivider rest).map (fun p => (l :: p.1, p.2))

/-- Lines before the first end-marker line: `some (body, endLine, rest)`. -/
def takeUntilEnd : List String → Option (List String × String × List String)
  | [] => none
  | l :: rest =>
    if isEndLine l then some ([], l, rest)
    else (takeUntilEnd rest).map (fun p => (l :: p.1, p.2.1, p.2.2))

/-- Concatenate a list of lines back into one string. -/
def joinLines : List String → String
  | [] => ""
  | l :: ls => l ++ joinLines ls

/-- Line-based scan for conflict regions.  `fuel` only bounds the recursion
and is in practice the number of lines (every step consumes at least one
line); `pos` is the character offset of the current line. -/
def scanConflicts : Nat → List String → Nat → List MergeConflict
  | 0, _, _ => []
  | _ + 1, [], _ => []
  | fuel + 1, l :: rest, pos =>
    if isStartLine l then
      match takeUntilDivider rest with
      | some (curLines, rest2) =>
        match takeUntilEnd rest2 with
        | some (incLines, endL, rest3) =>
          let current := joinLines curLines
          let incoming := joinLines incLines
          let text := l ++ current ++ "=======\n" ++ incoming ++ endL
          ⟨pos, pos + text.length, l, endL, current, incoming, text⟩ ::
            scanConflicts fuel rest3 (pos + text.length)
        | none => scanConflicts fuel rest (pos + l.length)
      | none => scanConflicts fuel rest (pos + l.length)
    else scanConflicts fuel rest (pos + l.length)

/-- Model of `parse_merge_conflicts`: all conflict regions of a file's text in
file order. -/
def parse_merge_conflicts (file_text : String) : List MergeConflict :=
  let lines := splitlinesStr file_text
  scanConflicts lines.length lines 0

/-! ### Strategy resolution in `do_merge` (merge_utils.py 165..172) -/

/-- The HIGHER/LOWER rewriting block of `do_merge`: `is_current_bigger` is
`compare_versions(incoming_version, current_version)` and the strategy
degrades to CURRENT or INCOMING before any textual resolution. -/
def resolveMergeStrategy (incoming_version current_version : String)
    (merge_strategy : MergeStrategy) : MergeStrategy :=
  if merge_strategy = .HIGHER || merge_strategy = .LOWER then
    let is_current_bigger := compare_versions incoming_version current_version
    let should_merge_current :=
      (is_current_bigger && merge_strategy = MergeStrategy.HIGHER) ||
        (!is_current_bigger && merge_strategy = MergeStrategy.LOWER)
    if should_merge_current then .CURRENT else .INCOMING
  else merge_strategy

/-! ### The resolution loop of `resolve_version_conflicts` (merge_utils.py 211..218)

The loop walks the parsed conflicts in reverse file order and rewrites
`file_text` by `apply_merge`; the pairs below are the conflicts actually
rewritten together with their computed merge results, in the processed
(reverse, i.e. decreasing-offset) order. -/

def applyMergesRev (pairs : List (MergeConflict × String)) (file_text : String) : String :=
  pairs.foldl (fun t cm => cm.1.apply_merge t cm.2) file_text

/-- Character-list core of `apply_merge`. -/
def applyList (st en : Nat) (m s : List Char) : List Char :=
  s.take st ++ m ++ s.drop en

/-- Character-list form of the resolution loop. -/
def applyAllList (L : List (Nat × Nat × List Char)) (s : List Char) : List Char :=
  L.foldl (fun t x => applyList x.1 x.2.1 x.2.2 t) s

/-- Disjoint, in-bounds regions listed in decreasing offset order (the order
`resolve_version_conflicts` processes them in): each span `[st, en)` sits at
or below the bound, and the spans before it in file order sit below `st`. -/
def descChain : Nat → List (Nat × Nat × List Char) → Bool
  | _, [] => true
  | ub, (st, en, _) :: rest => st ≤ en && en ≤ ub && descChain st rest

/-- What byte-span replacement leaves of the original text: the segment after
the last region and, recursively, the spliced prefix before it — i.e. every
character outside the regions, in order, with each merge result in place. -/
def spliceDesc (s : List Char) : List (Nat × Nat × List Char) → List Char
  | [] => s
  | (st, en, m) :: rest => spliceDesc (s.take st) rest ++ m ++ s.drop en

/-! ### Ordering lemmas for the semantic-version comparison -/

theorem cmpNat_self (n : Nat) : cmpNat n n = .eq := by
  simp [cmpNat]

theorem cmpCharList_self : ∀ l, cmpCharList l l = Ordering.eq
  | [] => rfl
  | c :: cs => by simp [cmpCharList, cmpCharList_self cs]

theorem cmpIdent_self (a : String) : cmpIdent a a = .eq := by
  unfold cmpIdent
  by_cases h : isNumericIdent a <;> simp [h, cmpNat_self, cmpStr, cmpCharList_self]

theorem cmpIdentLoop_self : ∀ l, cmpIdentLoop l l = Ordering.eq
  | [] => rfl
  | a :: as => by simp [cmpIdentLoop, cmpIdent_self, cmpIdentLoop_self as]

theorem natCmp_self (l : List String) : natCmp l l = .eq := by
  simp [natCmp, cmpIdentLoop_self, cmpNat_self]

theorem cmpPrerelease_self : ∀ l, cmpPrerelease l l = Ordering.eq
  | [] => rfl
  | a :: as => by simp [cmpPrerelease, natCmp_self]

theorem semVerCmp_self (v : SemVer) : semVerCmp v v = .eq := by
  simp [semVerCmp, cmpNat_self, cmpPrerelease_self, ordThen]

theorem semVerLt_irrefl (v : SemVer) : semVerLt v v = false := by
  simp [semVerLt, semVerCmp_self]

theorem cmpNat_swap (a b : Nat) : cmpNat b a = (cmpNat a b).swap := by
  simp only [cmpNat]
  rcases Nat.lt_trichotomy a b with h | h | h
  · simp [h, Nat.lt_asymm h, Ordering.swap]
  · simp [h, Ordering.swap]
  · simp [h, Nat.lt_asymm h, Ordering.swap]

theorem cmpCharList_swap : ∀ a b, cmpCharList b a = (cmpCharList a b).swap
  | [], [] => rfl
  | [], _ :: _ => rfl
  | _ :: _, [] => rfl
  | a :: as, b :: bs => by
    simp only [cmpCharList]
    rcases Nat.lt_trichotomy a.toNat b.toNat with h | h | h
    · simp [h, Nat.lt_asymm h, Ordering.swap]
    · simp [h, cmpCharList_swap as bs]
    · simp [h, Nat.lt_asymm h, Ordering.swap]

theorem cmpStr_swap (a b : String) : cmpStr b a = (cmpStr a b).swap :=
  cmpCharList_swap a.data b.data

theorem cmpIdent_swap (a b : String) : cmpIdent b a = (cmpIdent a b).swap := by
  unfold cmpIdent
  by_cases ha : isNumericIdent a <;> by_cases hb : isNumericIdent b
  · simpa [ha, hb] using cmpNat_swap (digitsToNat a.data) (digitsToNat b.data)
  · simp [ha, hb, Ordering.swap]
  · simp [ha, hb, Ordering.swap]
  · simpa [ha, hb] using cmpStr_swap a b

theorem cmpIdentLoop_swap : ∀ a b, cmpIdentLoop b a = (cmpIdentLoop a b).swap
  | [], [] => rfl
  | [], _ :: _ => rfl
  | _ :: _, [] => rfl
  | a :: as, b :: bs => by
    simp only [cmpIdentLoop, cmpIdent_swap a b]
    cases cmpIdent a b
    · simp [Ordering.swap]
    · simpa [Ordering.swap] using cmpIdentLoop_swap as bs
    · simp [Ordering.swap]

theorem natCmp_swap (a b : List String) : natCmp b a = (natCmp a b).swap := by
  simp only [natCmp, cmpIdentLoop_swap a b]
  cases cmpIdentLoop a b
  · simp [Ordering.swap]
  · simpa [Ordering.swap] using
      cmpNat_swap (joinWith "." a).length (joinWith "." b).length
  · simp [Ordering.swap]

theorem cmpPrerelease_swap : ∀ a b, cmpPrerelease b a = (cmpPrerelease a b).swap
  | [], [] => rfl
  | [], _ :: _ => rfl
  | _ :: _, [] => rfl
  | a :: as, b :: bs => by
    simp only [cmpPrerelease]
    exact natCmp_swap (a :: as) (b :: bs)

theorem ordThen_swap (a b : Ordering) : (ordThen a b).swap = ordThen a.swap b.swap := by
  cases a <;> rfl

theorem semVerCmp_swap (x y : SemVer) : semVerCmp y x = (semVerCmp x y).swap := by
  unfold semVerCmp
  rw [cmpNat_swap x.major y.major, cmpNat_swap x.minor y.minor, cmpNat_swap x.patch y.patch,
    cmpPrerelease_swap x.prerelease y.prerelease, ordThen_swap, ordThen_swap, ordThen_swap]

theorem semVerLt_asymm {x y : SemVer} (h : semVerLt x y = true) : semVerLt y x = false := by
  simp only [semVerLt, decide_eq_true_eq] at h
  simp [semVerLt, semVerCmp_swap x y, h, Ordering.swap]

/-! ### Facts about `compare_versions` -/

theorem parseSemVer_empty : parseSemVer "" = none := rfl

/-- With both strings parsable (and the old one non-empty), `compare_versions`
is exactly the strict semantic-version comparison. -/
theorem compare_versions_of_parse {old new : String} {o n : SemVer}
    (ho : parseSemVer old = some o) (hn : parseSemVer new = some n) :
    compare_versions old new = semVerLt o n := by
  have hne : old ≠ "" := by
    intro h
    rw [h, parseSemVer_empty] at ho
    exact Option.noConfusion ho
  simp [compare_versions, hne, ho, hn]

/-- Identical version strings never compare as increasing. -/
theorem compare_versions_self (v : String) : compare_versions v v = false := by
  by_cases hv : v = ""
  · simp [compare_versions, hv, parseSemVer_empty]
  · cases hp : parseSemVer v with
    | none => simp [compare_versions, hv, hp]
    | some o => simp [compare_versions_of_parse hp hp, semVerLt_irrefl]

/-! ### Claim C1 -/

/-- Claim C1: `compare_versions(old, new)` returns `True` exactly when the new
version string parses as a semantic version and either the old string is
empty (new-file policy) or the old string parses to a strictly smaller
version under semantic-versioning precedence.  In particular it fails when
new equals or precedes old, and a non-empty unparsable old string fails (the
`ValueError` it raises stops the new version from ever being parsed) rather
than being treated like an absent one. -/
theorem compare_versions_spec (old_version_str new_version_str : String) :
    compare_versions old_version_str new_version_str = true ↔
      (parseSemVer new_version_str).isSome ∧
        (old_version_str = "" ∨
          ∃ o n, parseSemVer old_version_str = some o ∧
            parseSemVer new_version_str = some n ∧ semVerLt o n = true) := by
  by_cases hv : old_version_str = ""
  · cases hn : parseSemVer new_version_str <;> simp [compare_versions, hv, hn]
  · cases ho : parseSemVer old_version_str with
    | none => cases hn : parseSemVer new_version_str <;> simp [compare_versions, hv, ho, hn]
    | some o => cases hn : parseSemVer new_version_str <;> simp [compare_versions, hv, ho, hn]

/-! ### Claim C8 -/

/-- Claim C8: the HIGHER/LOWER rewriting block of `do_merge` compares the
primary file's two extracted versions and rewrites the strategy before any
textual resolution runs: HIGHER becomes the strategy keeping the side holding
the strictly larger semantic version (CURRENT when current is larger,
INCOMING when incoming is), and LOWER the smaller. -/
theorem resolveMergeStrategy_spec (incoming_version current_version : String)
    (vi vc : SemVer) (hi : parseSemVer incoming_version = some vi)
    (hc : parseSemVer current_version = some vc) :
    (semVerLt vi vc = true →
      resolveMergeStrategy incoming_version current_version .HIGHER = .CURRENT ∧
        resolveMergeStrategy incoming_version current_version .LOWER = .INCOMING) ∧
    (semVerLt vc vi = true →
      resolveMergeStrategy incoming_version current_version .HIGHER = .INCOMING ∧
        resolveMergeStrategy incoming_version current_version .LOWER = .CURRENT) := by
  have hcmp := compare_versions_of_parse hi hc
  constructor
  · intro hlt
    rw [hlt] at hcmp
    constructor <;> simp [resolveMergeStrategy, hcmp]
  · intro hgt
    rw [semVerLt_asymm hgt] at hcmp
    constructor <;> simp [resolveMergeStrategy, hcmp]

/-- Witness for C8 at the concrete versions 1.0.0 (incoming) and 2.0.0
(current). -/
theorem resolveMergeStrategy_spec_witness :
    (semVerLt ⟨1, 0, 0, [], []⟩ ⟨2, 0, 0, [], []⟩ = true →
      resolveMergeStrategy "1.0.0" "2.0.0" .HIGHER = .CURRENT ∧
        resolveMergeStrategy "1.0.0" "2.0.0" .LOWER = .INCOMING) ∧
    (semVerLt ⟨2, 0, 0, [], []⟩ ⟨1, 0, 0, [], []⟩ = true →
      resolveMergeStrategy "1.0.0" "2.0.0" .HIGHER = .INCOMING ∧
        resolveMergeStrategy "1.0.0" "2.0.0" .LOWER = .CURRENT) :=
  resolveMergeStrategy_spec "1.0.0" "2.0.0" ⟨1, 0, 0, [], []⟩ ⟨2, 0, 0, [], []⟩ rfl rfl

/-! ### Claim C2 -/

/-- Claim C2 (amended): `_search_or_error` returns the first regex match's
full text when the engine finds a match; when the pattern is a valid regex
that does not match but occurs literally in the content it returns the
literal pattern; when the valid pattern neither matches nor occurs it signals
NotFound (aborting, or returning the empty string in non-fatal mode); and
when the pattern is an invalid regex the `re.error` raised by `re.search`
propagates out of the function, literal occurrence notwithstanding. -/
theorem search_or_error_spec (E : RegexEngine) (regex_str to_search_str : String)
    (abort : Bool) :
    (∀ m, E.search regex_str to_search_str = .ok (some m) →
      _search_or_error E regex_str to_search_str abort = .ok m) ∧
    (E.search regex_str to_search_str = .ok none →
      strContains to_search_str regex_str = true →
      _search_or_error E regex_str to_search_str abort = .ok regex_str) ∧
    (E.search regex_str to_search_str = .ok none →
      strContains to_search_str regex_str = false →
      _search_or_error E regex_str to_search_str abort =
        (if abort then .error .sysExit else .ok "")) ∧
    (∀ e, E.search regex_str to_search_str = .error e →
      _search_or_error E regex_str to_search_str abort = .error .reError) := by
  refine ⟨fun m hm => ?_, fun hn hc => ?_, fun hn hc => ?_, fun e he => ?_⟩
  · simp [_search_or_error, hm]
  · simp [_search_or_error, hn, hc]
  · simp [_search_or_error, hn, hc]
  · simp [_search_or_error, he]

/-- Concrete `re.search` results: in CPython, `re.search` with the pattern
`here[` raises `re.error` ("unterminated character set") for any text. -/
def invalidPatternEngine : RegexEngine :=
  ⟨fun p _ => if p = "here[" then .error () else .ok none⟩

/-- Counterexample to claim C2 as stated: `here[` is an invalid regex whose
literal text occurs in the content `xx here[ yy`, yet `_search_or_error`
propagates the `re.error` instead of returning the literal pattern. -/
theorem search_or_error_invalid_pattern_cex :
    strContains "xx here[ yy" "here[" = true ∧
      _search_or_error invalidPatternEngine "here[" "xx here[ yy" false =
        .error .reError ∧
      _search_or_error invalidPatternEngine "here[" "xx here[ yy" false ≠
        .ok "here[" := by
  refine ⟨rfl, rfl, fun h => ?_⟩
  rw [show _search_or_error invalidPatternEngine "here[" "xx here[ yy" false =
    Except.error PyErr.reError from rfl] at h
  exact Except.noConfusion h

/-! ### Claim C9 -/

/-- Claim C9 (amended): the Python class defines no `__eq__`, so `==` on
`CheckerPath` is object identity: equality holds exactly between the same
object and never between distinct instances, whatever their paths; the
repo-relative and cwd-relative forms are recomputed from the one stored
canonical absolute path (plus repo root), so instances agreeing on the stored
fields agree on every derived form. -/
theorem checkerPath_identity_spec (a b : CheckerPath) (cwd : String) :
    (CheckerPath.pyEq a b = true ↔ a.objId = b.objId) ∧
      (a.abs_path = b.abs_path → a.repo_root_path = b.repo_root_path →
        a.repo_path = b.repo_path ∧ a.cwd_path cwd = b.cwd_path cwd) := by
  refine ⟨by simp [CheckerPath.pyEq], fun h1 h2 => ?_⟩
  constructor
  · simp [CheckerPath.repo_path, h1, h2]
  · simp [CheckerPath.cwd_path, h1]

/-- Counterexample to claim C9 as stated: two `CheckerPath` instances
constructed as distinct objects over the same canonical absolute path
`/repo/f.txt` are not equal under Python `==`. -/
theorem checkerPath_same_path_not_equal_cex :
    (CheckerPath.make 0 "/repo" "." "f.txt").abs_path =
        (CheckerPath.make 1 "/repo" "." "f.txt").abs_path ∧
      (CheckerPath.make 0 "/repo" "." "f.txt").repo_root_path =
        (CheckerPath.make 1 "/repo" "." "f.txt").repo_root_path ∧
      CheckerPath.pyEq (CheckerPath.make 0 "/repo" "." "f.txt")
        (CheckerPath.make 1 "/repo" "." "f.txt") = false :=
  ⟨rfl, rfl, rfl⟩

/-! ### Generic reduction lemmas for `PyM` and strings -/

theorem pym_ok_bind {α β : Type} (a : α) (f : α → PyM β) :
    ((Except.ok a : PyM α) >>= f) = f a :=
  rfl

theorem pym_error_bind {α β : Type} (e : PyErr) (f : α → PyM β) :
    ((Except.error e : PyM α) >>= f) = .error e :=
  rfl

theorem str_append_empty (s : String) : s ++ "" = s := by
  simp

theorem str_empty_append (s : String) : "" ++ s = s := by
  simp

theorem isPrefixOf_self : ∀ l : List Char, l.isPrefixOf l = true
  | [] => rfl
  | c :: cs => by simp [List.isPrefixOf, isPrefixOf_self cs]

theorem str_ne_empty_of_data {s : String} (h : s.data ≠ []) : s ≠ "" :=
  fun hh => h (hh ▸ rfl)

theorem strEndsWith_ne_empty {s : String} (h : strEndsWith s "\n" = true) : s ≠ "" := by
  intro hh
  rw [hh] at h
  exact Bool.noConfusion h

theorem splitOnce_self {s : String} (h : s ≠ "") : splitOnce s s = some ("", "") := by
  unfold splitOnce
  rw [if_neg h]
  cases s with
  | mk l =>
    cases l with
    | nil => exact absurd rfl h
    | cons c cs =>
      show (splitOnceCore (c :: cs) (c :: cs)).map _ = _
      unfold splitOnceCore
      rw [if_pos (isPrefixOf_self (c :: cs))]
      simp [List.drop_length]

/-! ### Claim C10 -/

theorem descChain_mono {ub ub' : Nat} (h : ub ≤ ub') :
    ∀ {L}, descChain ub L = true → descChain ub' L = true
  | [], _ => rfl
  | (st, en, m) :: rest, hL => by
    simp only [descChain, Bool.and_eq_true, decide_eq_true_eq] at hL ⊢
    exact ⟨⟨hL.1.1, Nat.le_trans hL.1.2 h⟩, hL.2⟩

theorem applyAllList_cons (x : Nat × Nat × List Char) (L : List (Nat × Nat × List Char))
    (s : List Char) : applyAllList (x :: L) s = applyAllList L (applyList x.1 x.2.1 x.2.2 s) :=
  rfl

theorem applyAllList_append :
    ∀ (L : List (Nat × Nat × List Char)) (al : List Char),
      descChain al.length L = true →
      ∀ c, applyAllList L (al ++ c) = applyAllList L al ++ c
  | [], _, _, _ => rfl
  | (st, en, m) :: rest, al, hL, c => by
    simp only [descChain, Bool.and_eq_true, decide_eq_true_eq] at hL
    obtain ⟨⟨h1, h2⟩, h3⟩ := hL
    have hst : st ≤ al.length := Nat.le_trans h1 h2
    have happ : applyList st en m (al ++ c) = applyList st en m al ++ c := by
      simp [applyList, List.take_append_of_le_length hst,
        List.drop_append_of_le_length h2]
    have hlen : st ≤ (applyList st en m al).length := by
      simp [applyList, List.length_take]
      omega
    rw [applyAllList_cons, applyAllList_cons, happ]
    exact applyAllList_append rest (applyList st en m al) (descChain_mono hlen h3) c

theorem applyAllList_spliceDesc :
    ∀ (L : List (Nat × Nat × List Char)) (s : List Char),
      descChain s.length L = true → applyAllList L s = spliceDesc s L
  | [], _, _ => rfl
  | (st, en, m) :: rest, s, hL => by
    simp only [descChain, Bool.and_eq_true, decide_eq_true_eq] at hL
    obtain ⟨⟨h1, h2⟩, h3⟩ := hL
    have hst : st ≤ s.length := Nat.le_trans h1 h2
    have hlen : (s.take st).length = st := by
      simp [List.length_take, Nat.min_eq_left hst]
    have hch : descChain (s.take st).length rest = true := by rw [hlen]; exact h3
    have hsplit : applyList st en m s = s.take st ++ (m ++ s.drop en) := by
      simp [applyList]
    rw [applyAllList_cons, hsplit, applyAllList_append rest (s.take st) hch,
      applyAllList_spliceDesc rest (s.take st) hch]
    simp [spliceDesc, List.append_assoc]

theorem applyMergesRev_cons (cm : MergeConflict × String)
    (rest : List (MergeConflict × String)) (file_text : String) :
    applyMergesRev (cm :: rest) file_text =
      applyMergesRev rest (cm.1.apply_merge file_text cm.2) :=
  rfl

theorem applyMergesRev_data :
    ∀ (pairs : List (MergeConflict × String)) (file_text : String),
      (applyMergesRev pairs file_text).data =
        applyAllList (pairs.map fun cm => (cm.1.start_index, cm.1.end_index, cm.2.data))
          file_text.data
  | [], _ => rfl
  | cm :: rest, file_text => by
    rw [applyMergesRev_cons, applyMergesRev_data rest (cm.1.apply_merge file_text cm.2),
      List.map_cons, applyAllList_cons]
    rfl

/-- Claim C10: `apply_merge` only replaces the span `[start_index,
end_index)` — every character before `start_index` and from `end_index`
onward is preserved — and the decreasing-offset loop of
`resolve_version_conflicts`, applied to disjoint in-bounds regions, produces
exactly the original text with each region replaced by its merge result:
nothing outside the regions changes. -/
theorem apply_merge_frame (c : MergeConflict) (file_text merge_result : String)
    (pairs : List (MergeConflict × String))
    (hc1 : c.start_index ≤ c.end_index) (hc2 : c.end_index ≤ file_text.length)
    (hchain : descChain file_text.length
      (pairs.map fun cm => (cm.1.start_index, cm.1.end_index, cm.2.data)) = true) :
    ((c.apply_merge file_text merge_result).data.take c.start_index =
        file_text.data.take c.start_index ∧
      (c.apply_merge file_text merge_result).data.drop
          (c.start_index + merge_result.length) =
        file_text.data.drop c.end_index) ∧
    (applyMergesRev pairs file_text).data =
      spliceDesc file_text.data
        (pairs.map fun cm => (cm.1.start_index, cm.1.end_index, cm.2.data)) := by
  have hst : c.start_index ≤ file_text.data.length := Nat.le_trans hc1 hc2
  have hlen : (file_text.data.take c.start_index).length = c.start_index := by
    simp only [List.length_take]
    omega
  refine ⟨⟨?_, ?_⟩, ?_⟩
  · show (file_text.data.take c.start_index ++ merge_result.data ++
      file_text.data.drop c.end_index).take c.start_index = _
    rw [List.append_assoc, List.take_append_of_le_length (Nat.le_of_eq hlen.symm),
      List.take_take, Nat.min_self]
  · show (file_text.data.take c.start_index ++ merge_result.data ++
      file_text.data.drop c.end_index).drop (c.start_index + merge_result.length) = _
    have hsum : c.start_index + merge_result.length =
        (file_text.data.take c.start_index ++ merge_result.data).length := by
      rw [List.length_append, hlen]
      rfl
    rw [hsum, List.drop_left]
  · rw [applyMergesRev_data]
    exact applyAllList_spliceDesc _ _ hchain

/-! ### Claim C5 -/

theorem is_regex_match_ok {E : RegexEngine} {p l : String} {b : Bool}
    (h : is_regex_match E p l = .ok b) : b = matchesPure E p l := by
  cases hE : E.search p l with
  | error e =>
    simp only [is_regex_match, hE] at h
    exact Except.noConfusion h
  | ok o =>
    simp only [is_regex_match, hE] at h
    simp only [matchesPure, hE]
    cases o with
    | none => injection h with h; exact h.symm
    | some m => injection h with h; exact h.symm

theorem filterMatchingLines_ok {E : RegexEngine} {p : String} :
    ∀ {ls r : List String}, filterMatchingLines E p ls = .ok r →
      r = ls.filter (matchesPure E p)
  | [], r, h => by
    injection h with h
    rw [← h]
    rfl
  | l :: ls, r, h => by
    simp only [filterMatchingLines] at h
    cases hm : is_regex_match E p l with
    | error e =>
      simp only [hm, pym_error_bind] at h
      exact Except.noConfusion h
    | ok b =>
      simp only [hm, pym_ok_bind] at h
      cases hrest : filterMatchingLines E p ls with
      | error e =>
        simp only [hrest, pym_error_bind] at h
        exact Except.noConfusion h
      | ok rs =>
        simp only [hrest, pym_ok_bind] at h
        injection h with h
        rw [← h, is_regex_match_ok hm, filterMatchingLines_ok hrest]
        by_cases hb : matchesPure E p l = true
        · simp [List.filter_cons, hb]
        · simp [List.filter_cons, hb]

/-- Claim C5: `parse_version_conflict_lines` pairs, in order, the
current-side lines matching the current regex with the incoming-side lines
matching the incoming regex; when the two match counts differ, the
`list(zip(...))` silently truncates to exactly the shorter count (the code
only logs a warning) instead of failing. -/
theorem parse_version_conflict_lines_spec (E : RegexEngine) (version_file : VersionFile)
    (conflict : MergeConflict) (r : List (String × String))
    (h : parse_version_conflict_lines E version_file conflict = .ok r) :
    r = (currentMatchLines E version_file conflict).zip
        (incomingMatchLines E version_file conflict) ∧
      r.length = min (currentMatchLines E version_file conflict).length
        (incomingMatchLines E version_file conflict).length := by
  simp only [parse_version_conflict_lines] at h
  cases hc : filterMatchingLines E version_file.current_regex
      (splitlinesStr conflict.current) with
  | error e =>
    simp only [hc, pym_error_bind] at h
    exact Except.noConfusion h
  | ok cur =>
    simp only [hc, pym_ok_bind] at h
    cases hi : filterMatchingLines E version_file.incoming_regex
        (splitlinesStr conflict.incoming) with
    | error e =>
      simp only [hi, pym_error_bind] at h
      exact Except.noConfusion h
    | ok inc =>
      simp only [hi, pym_ok_bind] at h
      injection h with h
      rw [← h, filterMatchingLines_ok hc, filterMatchingLines_ok hi]
      exact ⟨rfl, List.length_zip _ _⟩

/-- Concrete `re.search` rows, each reproducing CPython: the pattern `1.0.0`
matches inside `v 1.0.0\n` (full match `1.0.0`), `1.1.0` matches inside
`v 1.1.0\n`, and `1.0.0` finds no match inside `v 1.1.0\n` (the dots may
match any character, but no alignment fits). -/
def truncationEngine : RegexEngine :=
  ⟨fun p t =>
    if p = "1.0.0" && t = "v 1.0.0\n" then .ok (some "1.0.0")
    else if p = "1.1.0" && t = "v 1.1.0\n" then .ok (some "1.1.0")
    else .ok none⟩

/-- The version file and conflict of the truncation witness: two matching
current lines against one matching incoming line. -/
def truncationConflict : MergeConflict :=
  ⟨0, 0, "<<<<<<< HEAD\n", ">>>>>>> feature\n", "v 1.0.0\nv 1.0.0\n", "v 1.1.0\n", ""⟩

/-- Witness for C5: with two current matches and one incoming match the
result is the single truncated pair. -/
theorem parse_version_conflict_lines_spec_witness :
    [("v 1.0.0\n", "v 1.1.0\n")] =
        (currentMatchLines truncationEngine
            ⟨CheckerPath.make 2 "/r" "." "f", "1.0.0", "1.1.0"⟩ truncationConflict).zip
          (incomingMatchLines truncationEngine
            ⟨CheckerPath.make 2 "/r" "." "f", "1.0.0", "1.1.0"⟩ truncationConflict) ∧
      [("v 1.0.0\n", "v 1.1.0\n")].length =
        min (currentMatchLines truncationEngine
            ⟨CheckerPath.make 2 "/r" "." "f", "1.0.0", "1.1.0"⟩ truncationConflict).length
          (incomingMatchLines truncationEngine
            ⟨CheckerPath.make 2 "/r" "." "f", "1.0.0", "1.1.0"⟩ truncationConflict).length :=
  parse_version_conflict_lines_spec truncationEngine
    ⟨CheckerPath.make 2 "/r" "." "f", "1.0.0", "1.1.0"⟩ truncationConflict
    [("v 1.0.0\n", "v 1.1.0\n")] rfl

/-! ### Claim C6 -/

/-- One step's segments in `get_split_merge_result`: the text found before
each matched line on either side, and the matched (split) lines themselves. -/
structure SplitSeg where
  current_parsed : String
  incoming_parsed : String
  current_split : String
  incoming_split : String
deriving DecidableEq

/-- Does any segment of the step break a line boundary
(`_is_invalid_line`)? -/
def SplitSeg.invalid (q : SplitSeg) : Bool :=
  MergeConflict.isInvalidLine q.current_parsed ||
    MergeConflict.isInvalidLine q.incoming_parsed ||
    MergeConflict.isInvalidLine q.current_split ||
    MergeConflict.isInvalidLine q.incoming_split

/-- The sequence of segments the split pairs produce from the two bodies
(independently of their validity); `none` when some split string is not found
(the `ValueError` path). -/
def splitSegments : List (String × String) → String → String → Option (List SplitSeg)
  | [], _, _ => some []
  | (curSplit, incSplit) :: rest, current, incoming =>
    match splitOnce current curSplit, splitOnce incoming incSplit with
    | some (cp, current'), some (ip, incoming') =>
      (splitSegments rest current' incoming').map (fun l => ⟨cp, ip, curSplit, incSplit⟩ :: l)
    | _, _ => none

theorem splitMergeAux_none_of_invalid (c : MergeConflict) (strat : Option MergeStrategy) :
    ∀ (splits : List (String × String)) (current incoming : String)
      (segs : List SplitSeg) (res : String),
      splitSegments splits current incoming = some segs →
      (∃ q ∈ segs, SplitSeg.invalid q = true) →
      MergeConflict.splitMergeAux c strat splits res current incoming = none
  | [], current, incoming, segs, res, hs, hex => by
    injection hs with hs
    obtain ⟨q, hq, _⟩ := hex
    rw [← hs] at hq
    exact absurd hq (List.not_mem_nil q)
  | (curSplit, incSplit) :: rest, current, incoming, segs, res, hs, hex => by
    simp only [splitSegments] at hs
    simp only [MergeConflict.splitMergeAux]
    cases h1 : splitOnce current curSplit with
    | none =>
      simp only [h1] at hs
      exact Option.noConfusion hs
    | some p1 =>
      cases h2 : splitOnce incoming incSplit with
      | none =>
        simp only [h1, h2] at hs
        exact Option.noConfusion hs
      | some p2 =>
        obtain ⟨cp, current'⟩ := p1
        obtain ⟨ip, incoming'⟩ := p2
        simp only [h1, h2] at hs ⊢
        cases h3 : splitSegments rest current' incoming' with
        | none =>
          rw [h3] at hs
          exact Option.noConfusion hs
        | some segsRest =>
          rw [h3] at hs
          simp only [Option.map_some'] at hs
          injection hs with hs
          by_cases hcond : (MergeConflict.isInvalidLine cp ||
              MergeConflict.isInvalidLine ip ||
              MergeConflict.isInvalidLine curSplit ||
              MergeConflict.isInvalidLine incSplit) = true
          · rw [if_pos hcond]
          · rw [if_neg hcond]
            obtain ⟨q, hq, hqi⟩ := hex
            rw [← hs] at hq
            rcases List.mem_cons.mp hq with hq | hq
            · exfalso
              apply hcond
              rw [hq] at hqi
              simpa [SplitSeg.invalid] using hqi
            · exact splitMergeAux_none_of_invalid c strat rest current' incoming'
                segsRest _ h3 ⟨q, hq, hqi⟩

/-- Claim C6: when any segment produced by splitting the conflict bodies at
the matched lines — the text found before a matched line, or a matched line
itself, on either side — is non-empty and does not end at a line boundary,
`get_split_merge_result` returns the conflict's original text unchanged: the
split is rejected and the conflict left untouched (a logged, non-fatal
outcome). -/
theorem get_split_merge_result_rejects_broken_lines (c : MergeConflict)
    (strat : Option MergeStrategy) (merge_splits : List (String × String))
    (segs : List SplitSeg)
    (hsegs : splitSegments merge_splits c.current c.incoming = some segs)
    (hbad : ∃ q ∈ segs, SplitSeg.invalid q = true) :
    c.get_split_merge_result merge_splits strat = c.text := by
  unfold MergeConflict.get_split_merge_result
  rw [splitMergeAux_none_of_invalid c strat merge_splits c.current c.incoming segs ""
    hsegs hbad]

/-- The conflict of the C6 witness: well-formed bodies, but split strings that
stop short of the newline. -/
def brokenSplitConflict : MergeConflict :=
  ⟨0, 67, "<<<<<<< HEAD\n", ">>>>>>> feature\n", "version: 1.0.0\n", "version: 1.1.0\n",
    "<<<<<<< HEAD\nversion: 1.0.0\n=======\nversion: 1.1.0\n>>>>>>> feature\n"⟩

/-- Witness for C6: splitting at the version texts without their newlines
produces matched-line segments that break the line boundary, so the conflict
text is returned unchanged. -/
theorem get_split_merge_result_rejects_broken_lines_witness :
    brokenSplitConflict.get_split_merge_result
        [("version: 1.0.0", "version: 1.1.0")] (some .BOTH) =
      brokenSplitConflict.text :=
  get_split_merge_result_rejects_broken_lines brokenSplitConflict (some .BOTH)
    [("version: 1.0.0", "version: 1.1.0")]
    [⟨"", "", "version: 1.0.0", "version: 1.1.0"⟩] rfl
    ⟨⟨"", "", "version: 1.0.0", "version: 1.1.0"⟩, by decide, by decide⟩

/-! ### Claim C7 -/

theorem scanConflicts_nil_of_no_start :
    ∀ (fuel : Nat) (lines : List String) (pos : Nat),
      (∀ l ∈ lines, isStartLine l = false) → scanConflicts fuel lines pos = []
  | 0, _, _, _ => rfl
  | _ + 1, [], _, _ => rfl
  | fuel + 1, l :: rest, pos, h => by
    have hl : isStartLine l = false := h l (List.mem_cons_self l rest)
    simp only [scanConflicts, hl, Bool.false_eq_true, if_false]
    exact scanConflicts_nil_of_no_start fuel rest _
      (fun x hx => h x (List.mem_cons_of_mem l hx))

/-- A text none of whose lines is a start-marker line parses to no
conflicts. -/
theorem parse_merge_conflicts_nil_of_no_start (file_text : String)
    (h : ∀ l ∈ splitlinesStr file_text, isStartLine l = false) :
    parse_merge_conflicts file_text = [] :=
  scanConflicts_nil_of_no_start _ _ _ h

/-- Claim C7: on a conflict whose current body is the single matched version
line X and whose incoming body is the single matched line Y (each ending in a
newline), strategy BOTH resolves to exactly the concatenation X ++ Y; and
since neither body carries a start-marker line, the resolved region parses to
no conflict at all afterwards. -/
theorem both_strategy_roundtrip (c : MergeConflict) (X Y : String)
    (hcur : c.current = X) (hinc : c.incoming = Y)
    (hX : strEndsWith X "\n" = true) (hY : strEndsWith Y "\n" = true)
    (hnostart : ∀ l ∈ splitlinesStr (X ++ Y), isStartLine l = false) :
    c.get_split_merge_result [(X, Y)] (some .BOTH) = X ++ Y ∧
      parse_merge_conflicts (X ++ Y) = [] := by
  have hXne : X ≠ "" := strEndsWith_ne_empty hX
  have hYne : Y ≠ "" := strEndsWith_ne_empty hY
  constructor
  · unfold MergeConflict.get_split_merge_result
    simp only [MergeConflict.splitMergeAux, hcur, hinc, splitOnce_self hXne,
      splitOnce_self hYne, MergeConflict.isInvalidLine, hX]
    simp [MergeConflict.isInvalidLine, hX, hY, MergeConflict.createConflictText,
      MergeConflict.getMergeResultOf, MergeConflict.splitMergeAux,
      str_empty_append, str_append_empty]
  · exact parse_merge_conflicts_nil_of_no_start (X ++ Y) hnostart

/-- The conflict of the C7 witness. -/
def bothConflict : MergeConflict :=
  ⟨0, 67, "<<<<<<< HEAD\n", ">>>>>>> feature\n", "version: 1.0.0\n", "version: 1.1.0\n",
    "<<<<<<< HEAD\nversion: 1.0.0\n=======\nversion: 1.1.0\n>>>>>>> feature\n"⟩

/-- Witness for C7 on concrete version lines. -/
theorem both_strategy_roundtrip_witness :
    bothConflict.get_split_merge_result
        [("version: 1.0.0\n", "version: 1.1.0\n")] (some .BOTH) =
      "version: 1.0.0\n" ++ "version: 1.1.0\n" ∧
      parse_merge_conflicts ("version: 1.0.0\n" ++ "version: 1.1.0\n") = [] :=
  both_strategy_roundtrip bothConflict "version: 1.0.0\n" "version: 1.1.0\n"
    rfl rfl rfl rfl (by decide)

/-! ### Claims C3 and C4 -/

theorem syncChecks_ok (E : RegexEngine) (current_commit : Commit) (new_version : String) :
    ∀ l : List (CheckerPath × String),
      (∀ p ∈ l, ∃ v, search_commit_file E current_commit p.1.repo_path p.2 false = .ok v) →
      ∃ b, syncChecks E current_commit new_version l = .ok b ∧
        (b = true ↔ ∃ p ∈ l, ∃ v,
          search_commit_file E current_commit p.1.repo_path p.2 false = .ok v ∧
            strContains v new_version = false)
  | [], _ => ⟨false, rfl, by simp⟩
  | (file, regex) :: rest, hok => by
    obtain ⟨v, hv⟩ := hok (file, regex) (List.mem_cons_self _ _)
    obtain ⟨b', hb', hiff⟩ := syncChecks_ok E current_commit new_version rest
      (fun p hp => hok p (List.mem_cons_of_mem _ hp))
    refine ⟨!strContains v new_version || b', ?_, ?_⟩
    · simp only [syncChecks, hv, pym_ok_bind, hb']
    · constructor
      · intro h
        rcases Bool.or_eq_true_iff.mp h with h | h
        · exact ⟨(file, regex), List.mem_cons_self _ _, v, hv,
            by simpa using h⟩
        · obtain ⟨p, hp, hvv⟩ := hiff.mp h
          exact ⟨p, List.mem_cons_of_mem _ hp, hvv⟩
      · rintro ⟨p, hp, v', hv', hcv'⟩
        rcases List.mem_cons.mp hp with hp | hp
        · subst hp
          rw [hv] at hv'
          injection hv' with hv'
          subst hv'
          simp [hcv']
        · rw [hiff.mpr ⟨p, hp, v', hv', hcv'⟩]
          simp

/-- Claim C4: once the primary check passes (versions parsed and strictly
increasing) and the scoped diff is non-empty, `do_check` looks up every
remaining file's version text at the current commit non-fatally and requires
the new primary version string to occur in it as a substring; the loop walks
every pair (collecting failures rather than stopping), and the check returns
success exactly when no file fails — and exits with failure exactly when some
file's looked-up text misses the new version. -/
theorem do_check_sync_spec (E : RegexEngine) (base_commit current_commit : Commit)
    (version_file : CheckerPath) (version_regex : String)
    (restFiles : List CheckerPath) (restRegexes : List String)
    (cwd working_tree_dir : String) (old_version new_version : String)
    (hdiff : (scopedDiff base_commit current_commit (relpath cwd working_tree_dir)).length ≠ 0)
    (hpv : parse_versions_from_version_file E base_commit current_commit
      version_file.repo_path version_regex = .ok (old_version, new_version))
    (hcmp : compare_versions old_version new_version = true)
    (hok : ∀ p ∈ restFiles.zip restRegexes, ∃ v,
      search_commit_file E current_commit p.1.repo_path p.2 false = .ok v) :
    (do_check E base_commit current_commit (version_file :: restFiles)
        (version_regex :: restRegexes) cwd working_tree_dir = .ok true ↔
      ∀ p ∈ restFiles.zip restRegexes, ∀ v,
        search_commit_file E current_commit p.1.repo_path p.2 false = .ok v →
          strContains v new_version = true) ∧
    (do_check E base_commit current_commit (version_file :: restFiles)
        (version_regex :: restRegexes) cwd working_tree_dir = .error .sysExit ↔
      ∃ p ∈ restFiles.zip restRegexes, ∃ v,
        search_commit_file E current_commit p.1.repo_path p.2 false = .ok v ∧
          strContains v new_version = false) := by
  obtain ⟨b, hb, hiff⟩ := syncChecks_ok E current_commit new_version
    (restFiles.zip restRegexes) hok
  have hcab : compare_versions_abort old_version new_version true = .ok true := by
    simp [compare_versions_abort, hcmp]
  have hrun : do_check E base_commit current_commit (version_file :: restFiles)
      (version_regex :: restRegexes) cwd working_tree_dir =
      (if b then .error .sysExit else .ok true) := by
    simp only [do_check]
    rw [if_neg hdiff]
    simp only [hpv, pym_ok_bind, hcab, hb]
  rw [hrun]
  by_cases hbv : b = true
  · rw [if_pos hbv]
    obtain ⟨p, hp, v, hv, hcv⟩ := hiff.mp hbv
    constructor
    · constructor
      · intro h
        exact Except.noConfusion h
      · intro hall
        rw [hall p hp v hv] at hcv
        exact Bool.noConfusion hcv
    · exact ⟨fun _ => ⟨p, hp, v, hv, hcv⟩, fun _ => rfl⟩
  · rw [if_neg hbv]
    constructor
    · constructor
      · intro _ p hp v hv
        by_contra hcv
        exact hbv (hiff.mpr ⟨p, hp, v, hv, Bool.eq_false_iff.mpr hcv⟩)
      · intro _
        rfl
    · constructor
      · intro h
        exact Except.noConfusion h
      · intro hex
        exact absurd (hiff.mpr hex) hbv

/-- Claim C3 (amended): `do_check` never tests whether the primary file
appears in the scoped diff; what holds is that whenever the primary file's
content is identical in the base and current commits (in particular whenever
the file is inside the scope but absent from the diff) and the scoped diff is
non-empty, the check fails terminally, because the extracted old and new
version texts coincide and the comparator rejects a non-increase (or the
extraction itself aborts).  A changed primary file outside the diff's scope
is nevertheless checked directly and can pass (see the counterexample). -/
theorem do_check_fails_on_unchanged_primary (E : RegexEngine)
    (base_commit current_commit : Commit) (version_file : CheckerPath)
    (version_regex : String) (restFiles : List CheckerPath) (restRegexes : List String)
    (cwd working_tree_dir : String) (content : String)
    (hbase : base_commit.getFile version_file.repo_path = some content)
    (hcur : current_commit.getFile version_file.repo_path = some content)
    (hdiff : (scopedDiff base_commit current_commit
      (relpath cwd working_tree_dir)).length ≠ 0) :
    pySucceeded (do_check E base_commit current_commit (version_file :: restFiles)
      (version_regex :: restRegexes) cwd working_tree_dir) = false := by
  have hhb : _has_commit_file base_commit version_file.repo_path = true := by
    simp [_has_commit_file, hbase]
  have hhc : _has_commit_file current_commit version_file.repo_path = true := by
    simp [_has_commit_file, hcur]
  have hsb : search_commit_file E base_commit version_file.repo_path version_regex true =
      _search_or_error E version_regex content true := by
    simp [search_commit_file, hbase]
  have hsc : search_commit_file E current_commit version_file.repo_path version_regex true =
      _search_or_error E version_regex content true := by
    simp [search_commit_file, hcur]
  cases hse : _search_or_error E version_regex content true with
  | error e =>
    have hpv : parse_versions_from_version_file E base_commit current_commit
        version_file.repo_path version_regex = .error e := by
      simp [parse_versions_from_version_file, hhb, hhc, hsb, hsc, hse, pym_error_bind]
    simp only [do_check]
    rw [if_neg hdiff]
    simp only [hpv, pym_error_bind, pySucceeded]
  | ok v =>
    have hpv : parse_versions_from_version_file E base_commit current_commit
        version_file.repo_path version_regex = .ok (v, v) := by
      simp [parse_versions_from_version_file, hhb, hhc, hsb, hsc, hse, pym_ok_bind]
    have hcab : compare_versions_abort v v true = .error .sysExit := by
      simp [compare_versions_abort, compare_versions_self]
    simp only [do_check]
    rw [if_neg hdiff]
    simp only [hpv, pym_ok_bind, hcab, pym_error_bind, pySucceeded]

/-- Concrete `re.search` rows for the check runs, each reproducing CPython:
the default version pattern matches the bare semantic versions and the one
inside `version 0.0.2`. -/
def checkEngine : RegexEngine :=
  ⟨fun p t =>
    if p = "([0-9]+\\.?){3}" && t = "0.0.1" then .ok (some "0.0.1")
    else if p = "([0-9]+\\.?){3}" && t = "0.0.2" then .ok (some "0.0.2")
    else if p = "([0-9]+\\.?){3}" && t = "version 0.0.2" then .ok (some "0.0.2")
    else .ok none⟩

/-- Base commit of the C3 counterexample: the version file sits at the repo
root, outside the `sub/` scope of the invocation. -/
def baseOutOfScope : Commit := ⟨[("sub/x.txt", "a"), ("v.txt", "0.0.1")]⟩

/-- Current commit of the C3 counterexample. -/
def currOutOfScope : Commit := ⟨[("sub/x.txt", "b"), ("v.txt", "0.0.2")]⟩

/-- Counterexample to claim C3 as stated: the primary file `v.txt` is present
in both commits, the diff scoped to `sub/` is non-empty, `v.txt` does not
appear in that diff — yet the check succeeds (its version increased), so the
check cannot be requiring the primary file to appear in the diff. -/
theorem do_check_ignores_diff_membership_cex :
    _has_commit_file baseOutOfScope "v.txt" = true ∧
      _has_commit_file currOutOfScope "v.txt" = true ∧
      (scopedDiff baseOutOfScope currOutOfScope (relpath "/repo/sub" "/repo")).length ≠ 0 ∧
      (CheckerPath.make 0 "/repo/sub" "/repo" "/repo/v.txt").repo_path ∉
        scopedDiff baseOutOfScope currOutOfScope (relpath "/repo/sub" "/repo") ∧
      do_check checkEngine baseOutOfScope currOutOfScope
        [CheckerPath.make 0 "/repo/sub" "/repo" "/repo/v.txt"] ["([0-9]+\\.?){3}"]
        "/repo/sub" "/repo" = .ok true :=
  ⟨rfl, rfl, by decide, by decide, rfl⟩

/-- Base commit of the C3 witness: some in-scope file changed, the primary
file's content identical on both sides. -/
def baseUnchanged : Commit := ⟨[("x.txt", "a"), ("v.txt", "0.0.1")]⟩

/-- Current commit of the C3 witness. -/
def currUnchanged : Commit := ⟨[("x.txt", "b"), ("v.txt", "0.0.1")]⟩

/-- Witness for the amended C3: an unchanged primary file with a non-empty
scoped diff makes the whole check fail. -/
theorem do_check_fails_on_unchanged_primary_witness :
    pySucceeded (do_check checkEngine baseUnchanged currUnchanged
      [CheckerPath.make 0 "/repo" "/repo" "/repo/v.txt"] ["([0-9]+\\.?){3}"]
      "/repo" "/repo") = false :=
  do_check_fails_on_unchanged_primary checkEngine baseUnchanged currUnchanged
    (CheckerPath.make 0 "/repo" "/repo" "/repo/v.txt") "([0-9]+\\.?){3}" [] []
    "/repo" "/repo" "0.0.1" rfl rfl (by decide)

/-- Base commit of the C4 witness. -/
def syncBase : Commit := ⟨[("v.txt", "0.0.1"), ("other.txt", "version 0.0.1")]⟩

/-- Current commit of the C4 witness: primary bumped, sync file updated. -/
def syncCurr : Commit := ⟨[("v.txt", "0.0.2"), ("other.txt", "version 0.0.2")]⟩

/-- Witness for C4 with one synchronized file whose text contains the new
version. -/
theorem do_check_sync_spec_witness :
    (do_check checkEngine syncBase syncCurr
        [CheckerPath.make 0 "/repo" "/repo" "/repo/v.txt",
          CheckerPath.make 1 "/repo" "/repo" "/repo/other.txt"]
        ["([0-9]+\\.?){3}", "([0-9]+\\.?){3}"] "/repo" "/repo" = .ok true ↔
      ∀ p ∈ [CheckerPath.make 1 "/repo" "/repo" "/repo/other.txt"].zip
          (["([0-9]+\\.?){3}"] : List String), ∀ v,
        search_commit_file checkEngine syncCurr p.1.repo_path p.2 false = .ok v →
          strContains v "0.0.2" = true) ∧
    (do_check checkEngine syncBase syncCurr
        [CheckerPath.make 0 "/repo" "/repo" "/repo/v.txt",
          CheckerPath.make 1 "/repo" "/repo" "/repo/other.txt"]
        ["([0-9]+\\.?){3}", "([0-9]+\\.?){3}"] "/repo" "/repo" = .error .sysExit ↔
      ∃ p ∈ [CheckerPath.make 1 "/repo" "/repo" "/repo/other.txt"].zip
          (["([0-9]+\\.?){3}"] : List String), ∃ v,
        search_commit_file checkEngine syncCurr p.1.repo_path p.2 false = .ok v ∧
          strContains v "0.0.2" = false) :=
  do_check_sync_spec checkEngine syncBase syncCurr
    (CheckerPath.make 0 "/repo" "/repo" "/repo/v.txt") "([0-9]+\\.?){3}"
    [CheckerPath.make 1 "/repo" "/repo" "/repo/other.txt"] ["([0-9]+\\.?){3}"]
    "/repo" "/repo" "0.0.1" "0.0.2" (by decide) rfl rfl
    (by
      intro p hp
      rw [show [CheckerPath.make 1 "/repo" "/repo" "/repo/other.txt"].zip
          (["([0-9]+\\.?){3}"] : List String) =
          [(CheckerPath.make 1 "/repo" "/repo" "/repo/other.txt", "([0-9]+\\.?){3}")]
        from rfl] at hp
      rw [List.mem_singleton] at hp
      subst hp
      exact ⟨"0.0.2", rfl⟩)

/-- Witness for C10: a ten-character text with two disjoint regions, rewritten
in decreasing offset order. -/
theorem apply_merge_frame_witness :
    (((MergeConflict.mk 2 4 "" "" "" "" "").apply_merge "0123456789" "xy").data.take 2 =
        "0123456789".data.take 2 ∧
      ((MergeConflict.mk 2 4 "" "" "" "" "").apply_merge "0123456789" "xy").data.drop
          (2 + "xy".length) =
        "0123456789".data.drop 4) ∧
    (applyMergesRev [(MergeConflict.mk 6 8 "" "" "" "" "", "Q"),
        (MergeConflict.mk 2 4 "" "" "" "" "", "xy")] "0123456789").data =
      spliceDesc "0123456789".data
        ([(MergeConflict.mk 6 8 "" "" "" "" "", "Q"),
          (MergeConflict.mk 2 4 "" "" "" "" "", "xy")].map
          fun cm => (cm.1.start_index, cm.1.end_index, cm.2.data)) :=
  apply_merge_frame (MergeConflict.mk 2 4 "" "" "" "" "") "0123456789" "xy"
    [(MergeConflict.mk 6 8 "" "" "" "" "", "Q"),
      (MergeConflict.mk 2 4 "" "" "" "" "", "xy")]
    (by decide) (by decide) (by decide)

end VersionChecker
